import Mathlib

/-!
Verification development for the gemini-image-mcp-server repository.

We give a shallow embedding of the media source resolution and upload
pipeline (src/gemini-media.ts) and of the local path resolver
(src/server-config.ts).  External collaborators (the HTTP client, the
mime-types library, the filesystem, the Gemini SDK, Node's url and JSON
facilities, the process environment) are modelled as oracle functions
collected in environment structures; every repository function is
translated statement by statement from the TypeScript source.

Node's path functions are modelled for a POSIX host (the functions
path.normalize, path.resolve, path.join are path.posix there;
path.win32.isAbsolute is modelled separately because the source calls it
explicitly).  Machine numbers appear only as small clamped integers, so
Int/Nat suffice.
-/

namespace GeminiMcp

/-! ## Kernel-computable string helpers

Core String functions such as trim, toLower, splitOn, startsWith and
endsWith are implemented on byte positions with well-founded recursion and
therefore do not reduce inside the kernel; the embedding uses the
following list-based equivalents throughout so that every definition can
be evaluated on concrete inputs by rfl or decide. -/

/-- The whitespace characters relevant to trimming (ASCII subset of the
JS/Lean whitespace classes; all inputs of interest are ASCII). -/
def wsChar (c : Char) : Bool :=
  c == ' ' || c == '\t' || c == '\n' || c == '\r' || c == '\x0b' || c == '\x0c'

/-- String.prototype.trim. -/
def trimL (s : String) : String :=
  String.mk (((s.data.dropWhile wsChar).reverse.dropWhile wsChar).reverse)

/-- String.prototype.toLowerCase on ASCII data. -/
def lowerStr (s : String) : String :=
  String.mk (s.data.map Char.toLower)

/-- startsWith. -/
def startsWithL (s pre : String) : Bool :=
  pre.data.isPrefixOf s.data

/-- endsWith. -/
def endsWithL (s suf : String) : Bool :=
  suf.data.reverse.isPrefixOf s.data.reverse

/-- take as a string. -/
def takeStr (s : String) (n : Nat) : String :=
  String.mk (s.data.take n)

/-- drop as a string. -/
def dropStr (s : String) (n : Nat) : String :=
  String.mk (s.data.drop n)

/-- dropRight as a string. -/
def dropRightStr (s : String) (n : Nat) : String :=
  String.mk (s.data.take (s.data.length - n))

/-- JS String.prototype.split on a character predicate (each matching
character is a separator; adjacent separators yield empty fields). -/
def splitPredL (p : Char → Bool) : List Char → List (List Char)
  | [] => [[]]
  | c :: rest =>
    if p c then [] :: splitPredL p rest
    else
      match splitPredL p rest with
      | s :: ss => (c :: s) :: ss
      | [] => [[c]]

/-- split on a single character, as a list of strings. -/
def splitCharL (sep : Char) (s : String) : List String :=
  (splitPredL (fun c => c == sep) s.data).map String.mk

/-- join with a separator (Array.prototype.join / String.intercalate). -/
def joinSep (sep : String) (parts : List String) : String :=
  String.mk (List.intercalate sep.data (parts.map String.data))


/-! ## POSIX path model (Node path.posix) -/

/-- path.posix.isAbsolute: the first character is a forward slash. -/
def posixIsAbsolute (s : String) : Bool :=
  s.data.head? == some '/'

/-- Windows path separator test (slash or backslash). -/
def isWinSep (c : Char) : Bool :=
  c == '/' || c == '\\'

/-- Windows drive letter test (A-Z, a-z). -/
def isDriveLetter (c : Char) : Bool :=
  ('A' ≤ c && c ≤ 'Z') || ('a' ≤ c && c ≤ 'z')

/-- path.win32.isAbsolute: a leading separator, or a drive root such as C:\ . -/
def win32IsAbsolute (s : String) : Bool :=
  match s.data with
  | [] => false
  | c :: rest =>
    isWinSep c ||
      (isDriveLetter c &&
        match rest with
        | ':' :: d :: _ => isWinSep d
        | _ => false)

/-- One step of Node's normalizeString segment processing: drop empty and
dot segments; a dot-dot pops the previous segment unless it is itself a
dot-dot, and is kept only when allowAboveRoot (i.e. for relative paths). -/
def stepSeg (allowAboveRoot : Bool) (acc : List String) (seg : String) : List String :=
  if seg = "" || seg = "." then acc
  else if seg = ".." then
    if acc ≠ [] ∧ acc.getLast? ≠ some ".." then acc.dropLast
    else if allowAboveRoot then acc ++ [".."]
    else acc
  else acc ++ [seg]

/-- Segment list of a path after Node's normalizeString processing. -/
def normSegs (allowAboveRoot : Bool) (p : String) : List String :=
  (splitCharL '/' p).foldl (stepSeg allowAboveRoot) []

/-- path.posix.normalize. -/
def posixNormalize (p : String) : String :=
  if p = "" then "."
  else
    let isAbs := posixIsAbsolute p
    let trailing := endsWithL p "/"
    let core := joinSep "/" (normSegs (!isAbs) p)
    if core = "" then
      if isAbs then "/" else if trailing then "./" else "."
    else
      let withTrail := if trailing then core ++ "/" else core
      if isAbs then "/" ++ withTrail else withTrail

/-- The right-to-left prefixing pass of path.posix.resolve: arguments are
prepended (separated by slashes) until an absolute one is met, finally the
working directory.  Returns the combined string and whether an absolute
component was found. -/
def resolveCombine (cwd : String) : List String → String → String × Bool
  | [], acc => if cwd = "" then (acc, false) else (cwd ++ "/" ++ acc, posixIsAbsolute cwd)
  | a :: rest, acc =>
    if a = "" then resolveCombine cwd rest acc
    else
      let acc' := a ++ "/" ++ acc
      if posixIsAbsolute a then (acc', true) else resolveCombine cwd rest acc'

/-- path.posix.resolve over an argument list, against a working directory. -/
def posixResolveArgs (cwd : String) (args : List String) : String :=
  let cb := resolveCombine cwd args.reverse ""
  let core := joinSep "/" (normSegs (!cb.2) cb.1)
  if cb.2 then "/" ++ core
  else if core = "" then "." else core

/-- path.posix.join of two segments. -/
def posixJoin (a b : String) : String :=
  let joined := if a = "" then b else if b = "" then a else a ++ "/" ++ b
  if joined = "" then "." else posixNormalize joined

/-! ## server-config.ts -/

/-- Environment of external collaborators used by server-config.ts:
process.env, process.cwd(), os.homedir() (empty string models a falsy
result), and url.fileURLToPath (which throws on malformed input, modelled
as Except). -/
structure CfgEnv where
  envVar : String → Option String
  cwd : String
  homedir : String
  fileURLToPathFn : String → Except String String

/-- JS word character for the \ w regex class without the unicode flag. -/
def isWordChar (c : Char) : Bool :=
  ('a' ≤ c && c ≤ 'z') || ('A' ≤ c && c ≤ 'Z') || ('0' ≤ c && c ≤ '9') || c == '_'

/-- First replacement pass of expandEnvironmentVariables: the global regex
for dollar-name and dollar-brace-name references.  A structural match is
consumed whether or not the variable is defined (an undefined variable
leaves the matched text in place, as String.prototype.replace does). -/
def scanDollarF (env : String → Option String) : Nat → List Char → List Char
  | 0, l => l
  | _ + 1, [] => []
  | fuel + 1, '$' :: rest =>
    let run := rest.takeWhile isWordChar
    if run ≠ [] then
      let tail := rest.drop run.length
      match env (String.mk run) with
      | some v => v.data ++ scanDollarF env fuel tail
      | none => '$' :: run ++ scanDollarF env fuel tail
    else if rest.head? = some '{' then
      let rest2 := rest.tail
      let content := rest2.takeWhile (fun c => c ≠ '}')
      if content ≠ [] ∧ (rest2.drop content.length).head? = some '}' then
        let tail := rest2.drop (content.length + 1)
        match env (String.mk content) with
        | some v => v.data ++ scanDollarF env fuel tail
        | none => '$' :: '{' :: content ++ '}' :: scanDollarF env fuel tail
      else
        '$' :: scanDollarF env fuel rest
    else '$' :: scanDollarF env fuel rest
  | fuel + 1, c :: rest => c :: scanDollarF env fuel rest

/-- The dollar pass, run with enough fuel (every step consumes at least
one character, so the input length suffices). -/
def scanDollar (env : String → Option String) (l : List Char) : List Char :=
  scanDollarF env l.length l

/-- Second replacement pass of expandEnvironmentVariables: the global
percent-name-percent regex, with the same consume-on-match behaviour. -/
def scanPercentF (env : String → Option String) : Nat → List Char → List Char
  | 0, l => l
  | _ + 1, [] => []
  | fuel + 1, '%' :: rest =>
    let content := rest.takeWhile (fun c => c ≠ '%')
    if content ≠ [] ∧ (rest.drop content.length).head? = some '%' then
      let tail := rest.drop (content.length + 1)
      match env (String.mk content) with
      | some v => v.data ++ scanPercentF env fuel tail
      | none => '%' :: content ++ '%' :: scanPercentF env fuel tail
    else
      '%' :: scanPercentF env fuel rest
  | fuel + 1, c :: rest => c :: scanPercentF env fuel rest

/-- The percent pass, run with enough fuel (every step consumes at least
one character, so the input length suffices). -/
def scanPercent (env : String → Option String) (l : List Char) : List Char :=
  scanPercentF env l.length l

/-- server-config.ts expandEnvironmentVariables: dollar pass then percent
pass, the second running over the output of the first. -/
def expandEnvironmentVariables (env : String → Option String) (value : String) : String :=
  String.mk (scanPercent env (scanDollar env value.data))

/-- The candidate path produced by resolveLocalPath before the final
absolute-or-resolve and normalize step: trim, reject empty, strip matching
surrounding quotes, then either decode a file URL (null on failure) or
expand environment references and a leading tilde (null when the home
directory is unknown). -/
def resolveCandidate (env : CfgEnv) (inputPath : String) : Option String :=
  let trimmed := trimL inputPath
  if trimmed = "" then none
  else
    let candidate :=
      if (startsWithL trimmed "\"" && endsWithL trimmed "\"")
          || (startsWithL trimmed "'" && endsWithL trimmed "'") then
        dropRightStr (dropStr trimmed 1) 1
      else trimmed
    if lowerStr (takeStr candidate 7) = "file://" then
      match env.fileURLToPathFn candidate with
      | .ok p => some p
      | .error _ => none
    else
      let expanded := expandEnvironmentVariables env.envVar candidate
      if startsWithL expanded "~" then
        if env.homedir = "" then none
        else some (posixJoin env.homedir (dropStr expanded 1))
      else some expanded

/-- server-config.ts isAbsolutePath: POSIX-absolute or Windows-absolute. -/
def isAbsolutePathTS (s : String) : Bool :=
  posixIsAbsolute s || win32IsAbsolute s

/-- Final step of resolveLocalPath: resolve a still-relative candidate
against the working directory, then path.normalize. -/
def finishPath (env : CfgEnv) (candidate : String) : String :=
  if isAbsolutePathTS candidate then posixNormalize candidate
  else posixNormalize (posixResolveArgs env.cwd [candidate])

/-- server-config.ts resolveLocalPath (the quiet and onRelative options do
not affect the returned value). -/
def resolveLocalPath (env : CfgEnv) (inputPath : String) : Option String :=
  (resolveCandidate env inputPath).map (finishPath env)

/-! ## gemini-media.ts: data model -/

/-- Tag of a media source (the type discriminant of the tagged unions
ImageSource and VideoSource; youtube is only meaningful for videos and the
builders return null for a tag their kind does not support). -/
inductive SourceType
  | url
  | local
  | youtube
deriving DecidableEq, Repr

/-- A media source: discriminant, data string (URL or path), and the
optional declared mimeType of local sources. -/
structure MediaSource where
  type : SourceType
  data : String
  mimeType : Option String := none
deriving DecidableEq, Repr

/-- A request part: the prompt text part or a fileData reference part
(this pipeline variant always stages bytes through the Files API, so no
inlineData part is ever built). -/
inductive Part
  | text (t : String)
  | fileData (fileUri mimeType : String)
deriving DecidableEq, Repr

/-- The single generateContent request: model name plus the parts of the
one user-role content entry (prompt first, then media parts). -/
structure GenRequest where
  model : String
  parts : List Part
deriving DecidableEq, Repr

/-- A staged-file handle as returned by files.upload / files.get.  Every
field is optional in the SDK; error carries the optional
error.message detail. -/
structure FileHandle where
  name : Option String := none
  uri : Option String := none
  mimeType : Option String := none
  state : Option String := none
  errMessage : Option String := none
deriving DecidableEq, Repr

/-- Result of a successful axios.get: only the content-type header is
observable to the pipeline (the body bytes are passed through opaquely). -/
structure FetchResp where
  contentType : Option String := none
deriving DecidableEq, Repr

/-- Outcome of fs.stat on a candidate path. -/
inductive StatOut
  | file
  | notFile
  | enoent (msg : String)
  | otherErr (msg : String)
deriving DecidableEq, Repr

/-- A part of a candidate's content in a generateContent response. -/
structure RespPart where
  text : Option String := none
deriving DecidableEq, Repr

/-- The content of a response candidate. -/
structure RespContent where
  parts : Option (List RespPart) := none
deriving DecidableEq, Repr

/-- A response candidate. -/
structure Candidate where
  finishReason : Option String := none
  content : Option RespContent := none
deriving DecidableEq, Repr

/-- The promptFeedback block of a response. -/
structure PromptFeedback where
  blockReason : Option String := none
deriving DecidableEq, Repr

/-- A generateContent response, as far as extractText inspects it. -/
structure GenResponse where
  text : Option String := none
  candidates : Option (List Candidate) := none
  promptFeedback : Option PromptFeedback := none
deriving DecidableEq, Repr

/-- Observable side effects of the pipeline, logged in call order (the
concurrent fan-out is modelled sequentially; the claims only count
occurrences, which the interleaving does not change). -/
inductive Eff
  | fetch (url : String)
  | statF (path : String)
  | upload (path mimeType : String)
  | getFile (name : String)
  | delay
  | gen (req : GenRequest)
deriving DecidableEq, Repr

/-- Environment of external collaborators for gemini-media.ts: axios,
the mime-types library, fs, process.env, os, url parsing, the Gemini SDK
client (files.upload / files.get / models.generateContent), JSON.parse
for the media-root lists, the mkdtemp temp directory and Date.now.  The
getFile oracle takes the per-poll call index and the looked-up name. -/
structure Env where
  fetch : String → Except String FetchResp
  mimeLookup : String → Option String
  mimeExt : String → Option String
  stat : String → StatOut
  envVar : String → Option String
  cwd : String
  homedir : String
  fileURLToPathFn : String → Except String String
  jsonParseStrList : String → Option (List String)
  urlPathname : String → Option String
  hasUpload : Bool
  upload : String → String → Except String FileHandle
  hasGet : Bool
  getFile : Nat → String → Except String FileHandle
  genContent : GenRequest → Except String GenResponse
  tmpdirName : String
  nowMs : Nat

/-! ## gemini-media.ts: configuration -/

/-- Number.parseInt(s, 10) on an already-trimmed string: optional sign,
then a maximal leading digit run; NaN (none) when the run is empty. -/
def parseIntTS (s : String) : Option Int :=
  let core : List Char → Option Int := fun l =>
    let digits := l.takeWhile Char.isDigit
    if digits = [] then none
    else some (digits.foldl (fun acc c => acc * 10 + (c.toNat - '0'.toNat)) (0 : Int))
  match s.data with
  | '-' :: rest => (core rest).map (fun n => -n)
  | '+' :: rest => core rest
  | l => core l

/-- gemini-media.ts parseIntegerEnv: fall back when the variable is unset,
empty, or unparsable; otherwise clamp into the min..max band. -/
def parseIntegerEnv (env : Env) (name : String) (fallback min max : Int) : Int :=
  match env.envVar name with
  | none => fallback
  | some raw =>
    if raw = "" then fallback
    else
      match parseIntTS (trimL raw) with
      | none => fallback
      | some parsed => Min.min max (Max.max min parsed)

/-- gemini-media.ts resolveFilePollInterval. -/
def resolveFilePollInterval (env : Env) : Int :=
  parseIntegerEnv env "GEMINI_FILE_POLL_INTERVAL_MS" 2000 0 60000

/-- gemini-media.ts resolveFilePollMaxAttempts. -/
def resolveFilePollMaxAttempts (env : Env) : Int :=
  parseIntegerEnv env "GEMINI_FILE_POLL_MAX_ATTEMPTS" 60 1 1000

/-- The polling configuration the GeminiMediaAnalyzer constructor computes
once from the process environment. -/
structure PollCfg where
  maxAttempts : Nat
  intervalMs : Nat
deriving DecidableEq, Repr

/-- Constructor-time configuration resolution of GeminiMediaAnalyzer. -/
def mkPollCfg (env : Env) : PollCfg :=
  { maxAttempts := (resolveFilePollMaxAttempts env).toNat
    intervalMs := (resolveFilePollInterval env).toNat }

/-! ## gemini-media.ts: upload and activation poller -/

/-- Message thrown on a FAILED staged file, with the optional
service-reported reason appended when it is truthy. -/
def failedMessage (kind sourcePath : String) (detail : Option String) : String :=
  let context := match detail with
    | some r => if r = "" then "" else " Reason: " ++ r
    | none => ""
  "Gemini Files API reported FAILED state for uploaded " ++ kind ++ " file (" ++
    sourcePath ++ ")." ++ context

/-- Message thrown when the attempt budget is exhausted, naming the last
observed state. -/
def timeoutMessage (kind sourcePath : String) (lastState : Option String) : String :=
  "Timed out waiting for Gemini Files API to process uploaded " ++ kind ++
    " file (" ++ sourcePath ++ "). Last known state: " ++ lastState.getD "unknown" ++ "."

/-- Message thrown when a files.get poll call itself fails. -/
def pollFailMessage (kind sourcePath msg : String) : String :=
  "Failed to poll Gemini Files API for uploaded " ++ kind ++ " file (" ++
    sourcePath ++ "): " ++ msg

/-- The bounded polling loop of waitForFileActivation.  In the source this
is a for loop with attempt running from 0 to filePollMaxAttempts - 1;
here remaining = maxAttempts - attempt, so the zero case is loop exit
(timeout) and the remaining = 1 case is the break on the final attempt.
An empty or missing state counts as ACTIVE (state defaulting and the
falsy check), FAILED aborts with the service detail, otherwise the loop
sleeps (when the interval is positive), re-fetches the handle by the
latest name (falling back to the initial file name) and repeats.
getCalls numbers the files.get invocations from 0. -/
def pollGo (g : Nat → String → Except String FileHandle) (intervalMs : Nat)
    (kind sourcePath fileName : String) :
    Nat → FileHandle → Nat → Except String FileHandle × List Eff
  | 0, latest, _ => (.error (timeoutMessage kind sourcePath latest.state), [])
  | remaining + 1, latest, getCalls =>
    let st := latest.state.getD "ACTIVE"
    if st = "" || st = "ACTIVE" then (.ok latest, [])
    else if st = "FAILED" then
      (.error (failedMessage kind sourcePath latest.errMessage), [])
    else if remaining = 0 then
      (.error (timeoutMessage kind sourcePath latest.state), [])
    else
      let dl : List Eff := if 0 < intervalMs then [.delay] else []
      let lookupName := latest.name.getD fileName
      match g getCalls lookupName with
      | .ok next =>
        let r := pollGo g intervalMs kind sourcePath fileName remaining next (getCalls + 1)
        (r.1, dl ++ .getFile lookupName :: r.2)
      | .error m =>
        (.error (pollFailMessage kind sourcePath m), dl ++ [.getFile lookupName])

/-- gemini-media.ts waitForFileActivation: when the initial handle has no
(truthy) name or the files module has no get function, the initial handle
is returned unchanged with no polling; otherwise the bounded poll loop
runs. -/
def waitForFileActivation (env : Env) (cfg : PollCfg) (kind sourcePath : String)
    (initial : FileHandle) : Except String FileHandle × List Eff :=
  match initial.name with
  | none => (.ok initial, [])
  | some fileName =>
    if fileName = "" || !env.hasGet then (.ok initial, [])
    else pollGo env.getFile cfg.intervalMs kind sourcePath fileName cfg.maxAttempts initial 0

/-! ## gemini-media.ts: response extraction -/

/-- Result of extractText plus whether the non-normal finish reason
warning was emitted. -/
structure ExtractOut where
  result : Except String String
  warned : Bool
deriving Repr

/-- Truthiness of the top-level convenience text field: a string whose
trimmed form is non-empty. -/
def topTextUsable (r : GenResponse) : Bool :=
  match r.text with
  | some t => trimL t ≠ ""
  | none => false

/-- The candidate-inspection tail of extractText: warn (only) on a truthy
finish reason that is neither STOP nor MAX_TOKENS, then require a truthy
first-part text of the first candidate. -/
def extractTextCand (cands : List Candidate) : ExtractOut :=
  let first := cands.head?
  let finishReason := first.bind Candidate.finishReason
  let warned := match finishReason with
    | some fr => fr != "" && fr != "STOP" && fr != "MAX_TOKENS"
    | none => false
  let text := ((first.bind Candidate.content).bind RespContent.parts).bind List.head? |>.bind RespPart.text
  match text with
  | some t =>
    if t = "" then ⟨.error "Gemini API returned no text content.", warned⟩
    else ⟨.ok t, warned⟩
  | none => ⟨.error "Gemini API returned no text content.", warned⟩

/-- The fallback of extractText when the top-level text is unusable:
no candidates is fatal, then a truthy prompt-feedback block reason is
fatal, then the first candidate is inspected. -/
def extractTextRest (r : GenResponse) : ExtractOut :=
  let cands := r.candidates.getD []
  if cands.length = 0 then ⟨.error "Gemini API returned no candidates.", false⟩
  else
    match r.promptFeedback.bind PromptFeedback.blockReason with
    | some b =>
      if b = "" then extractTextCand cands
      else ⟨.error ("Gemini API blocked the prompt: " ++ b), false⟩
    | none => extractTextCand cands

/-- gemini-media.ts extractText (the isVideo flag only changes the warning
text, not any returned value, and is therefore dropped here). -/
def extractText (r : GenResponse) : ExtractOut :=
  if topTextUsable r then ⟨.ok (r.text.getD ""), false⟩
  else extractTextRest r

/-! ## gemini-media.ts: MIME handling -/

/-- The fixed accepted video MIME type set. -/
def supportedVideoMimeTypes : List String :=
  ["video/mp4", "video/mpeg", "video/quicktime", "video/x-msvideo",
   "video/x-flv", "video/webm", "video/x-ms-wmv", "video/3gpp", "video/ogg"]

/-- gemini-media.ts mapVideoMimeType: map known aliases (matched on the
lowercased input) to the canonical service types; anything else is
returned unchanged. -/
def mapVideoMimeType (mimeType : String) : String :=
  let lowered := lowerStr mimeType
  if lowered = "application/mp4" then "video/mp4"
  else if lowered = "video/wmv" then "video/x-ms-wmv"
  else if lowered = "video/avi" then "video/x-msvideo"
  else if lowered = "video/mov" then "video/quicktime"
  else if lowered = "video/mpg" then "video/mpeg"
  else mimeType

/-- gemini-media.ts isSupportedVideoMimeType (membership of the lowercased
type in the accepted set). -/
def isSupportedVideoMimeType (mimeType : String) : Bool :=
  supportedVideoMimeTypes.contains (lowerStr mimeType)

/-- The content type resolved for a fetched URL body: the content-type
header up to the first semicolon when truthy, else the extension-based
lookup when truthy, else application/octet-stream. -/
def resolveFetchedMime (env : Env) (url : String) (resp : FetchResp) : String :=
  let headerMime := resp.contentType.map (fun h => String.mk (h.data.takeWhile (fun c => c ≠ ';')))
  let fromHeader := match headerMime with
    | some hm => if hm = "" then none else some hm
    | none => none
  match fromHeader with
  | some hm => hm
  | none =>
    match env.mimeLookup url with
    | some l => if l = "" then "application/octet-stream" else l
    | none => "application/octet-stream"

/-! ## gemini-media.ts: naming helpers -/

/-- gemini-media.ts deriveDefaultName: kind-timestamp plus the extension
(with at most one leading dot removed) when one is known. -/
def deriveDefaultName (kind : String) (ext : Option String) (nowMs : Nat) : String :=
  let suffix := match ext with
    | some e =>
      let normalized := if startsWithL e "." then dropStr e 1 else e
      "." ++ normalized
    | none => ""
  kind ++ "-" ++ toString nowMs ++ suffix

/-- Characters the sanitizer keeps: letters, digits, dot, underscore,
hyphen. -/
def isSafeNameChar (c : Char) : Bool :=
  ('a' ≤ c && c ≤ 'z') || ('A' ≤ c && c ≤ 'Z') || ('0' ≤ c && c ≤ '9') ||
    c == '.' || c == '_' || c == '-'

/-- gemini-media.ts sanitizeFileName: replace unsafe characters by an
underscore; an empty result falls back to the word upload. -/
def sanitizeFileName (name : String) : String :=
  let r := String.mk (name.data.map fun c => if isSafeNameChar c then c else '_')
  if r = "" then "upload" else r

/-- gemini-media.ts deriveDisplayNameFromSource: the last non-empty path
segment of the parsed URL, when it contains a dot; URL parse failures fall
back to none. -/
def deriveDisplayNameFromSource (env : Env) (source : String) : Option String :=
  match env.urlPathname source with
  | none => none
  | some pathname =>
    match ((splitCharL '/' pathname).filter (fun s => s ≠ "")).getLast? with
    | some candidate => if candidate.data.contains '.' then some candidate else none
    | none => none

/-! ## gemini-media.ts: local path location -/

/-- gemini-media.ts expandHomeDirectory: expand a leading tilde against
the home directory, stripping any separators that follow it; an unknown
home directory leaves the input unchanged. -/
def expandHomeDirectory (env : Env) (input : String) : String :=
  if !startsWithL input "~" then input
  else if env.homedir = "" then input
  else if input = "~" then env.homedir
  else posixJoin env.homedir (String.mk ((input.data.drop 1).dropWhile isWinSep))

/-- gemini-media.ts normalizeInputPath: tilde expansion, then file: URIs
are decoded through fileURLToPath, whose exceptions propagate. -/
def normalizeInputPath (env : Env) (rawPath : String) : Except String String :=
  let expanded := expandHomeDirectory env rawPath
  if lowerStr (takeStr expanded 5) = "file:" then env.fileURLToPathFn expanded
  else .ok expanded

/-- gemini-media.ts parseMediaRootList: JSON array parsing for
bracket-prefixed values (falling back to delimiter parsing when the parse
fails or yields a non-array), else splitting on commas, semicolons and
newlines.  The jsonParseStrList oracle returns the stringified trimmed-
relevant items of a successful array parse, none otherwise. -/
def parseMediaRootList (env : Env) (raw : Option String) : List String :=
  match raw with
  | none => []
  | some raw =>
    let trimmed := trimL raw
    if trimmed = "" then []
    else
      let splitFallback :=
        (((splitPredL (fun c => c == ',' || c == ';' || c == '\n') trimmed.data).map
          (fun l => trimL (String.mk l))).filter (fun s => s ≠ ""))
      if startsWithL trimmed "[" then
        match env.jsonParseStrList trimmed with
        | some arr => (arr.map trimL).filter (fun s => s ≠ "")
        | none => splitFallback
      else splitFallback

/-- Insertion-ordered deduplication, as iteration over a JS Set yields. -/
def dedupKeepFirst (l : List String) : List String :=
  l.foldl (fun acc x => if acc.contains x then acc else acc ++ [x]) []

/-- gemini-media.ts getMediaSearchRoots: resolved entries of the five
media-root environment variables, then the default roots (cwd, INIT_CWD,
PWD) that are truthy with non-blank trim, deduplicated in order. -/
def getMediaSearchRoots (env : Env) : List String :=
  let envSources :=
    [env.envVar "MCP_MEDIA_BASE_DIRS", env.envVar "MCP_MEDIA_BASE_DIR",
     env.envVar "MCP_MEDIA_SEARCH_DIRS", env.envVar "MCP_WORKSPACE_ROOT",
     env.envVar "WORKSPACE_ROOT"]
  let fromEnv := envSources.foldl
    (fun acc raw => acc ++ (parseMediaRootList env raw).map (fun e => posixResolveArgs env.cwd [e])) []
  let defaults :=
    (([some env.cwd, env.envVar "INIT_CWD", env.envVar "PWD"].filterMap id).filter
      (fun v => trimL v ≠ "")).map (fun v => posixResolveArgs env.cwd [v])
  dedupKeepFirst (fromEnv ++ defaults)

/-- gemini-media.ts buildPathCandidates: an absolute path is its own only
candidate (normalized); a relative one is resolved against every search
root and finally against the working directory, deduplicated. -/
def buildPathCandidates (env : Env) (rawPath : String) : List String :=
  if posixIsAbsolute rawPath then [posixNormalize rawPath]
  else
    dedupKeepFirst
      ((getMediaSearchRoots env).map (fun root => posixResolveArgs env.cwd [root, rawPath]) ++
        [posixResolveArgs env.cwd [rawPath]])

/-- The candidate loop of locateLocalMediaFile: each candidate is recorded
as attempted before fs.stat; the first regular file wins, a non-file or
ENOENT records the error and continues, any other stat failure aborts, and
exhaustion reports the last error with the attempted list. -/
def tryCandidates (env : Env) (kind rawPath : String) (index : Nat) :
    List String → List String → Option String → Except String String × List Eff
  | [], attempted, lastError =>
    let details := if attempted.isEmpty then "" else " Checked: " ++ joinSep ", " attempted
    let reason := lastError.getD "File does not exist."
    (.error ("Failed to access " ++ kind ++ " file at index " ++ toString index ++
      " (" ++ rawPath ++ "): " ++ reason ++ "." ++ details), [])
  | c :: rest, attempted, lastError =>
    match env.stat c with
    | .file => (.ok c, [.statF c])
    | .notFile =>
      let r := tryCandidates env kind rawPath index rest (attempted ++ [c]) (some "Not a file")
      (r.1, .statF c :: r.2)
    | .enoent m =>
      let r := tryCandidates env kind rawPath index rest (attempted ++ [c]) (some m)
      (r.1, .statF c :: r.2)
    | .otherErr m =>
      (.error ("Failed to access " ++ kind ++ " file at index " ++ toString index ++
        " (" ++ rawPath ++ "): " ++ m), [.statF c])

/-- gemini-media.ts locateLocalMediaFile: reject blank paths, normalize
the input (propagating normalization failures with context), then try the
candidates. -/
def locateLocalMediaFile (env : Env) (rawPath kind : String) (index : Nat) :
    Except String String × List Eff :=
  if trimL rawPath = "" then
    (.error ("Empty path provided for " ++ kind ++ " file at index " ++ toString index ++ "."), [])
  else
    match normalizeInputPath env (trimL rawPath) with
    | .error reason =>
      (.error ("Invalid " ++ kind ++ " file path at index " ++ toString index ++
        " (" ++ rawPath ++ "): " ++ reason), [])
    | .ok normalized =>
      tryCandidates env kind rawPath index (buildPathCandidates env normalized) [] none

/-- A located local file with its resolved (lowercased) MIME type. -/
structure PreparedFile where
  path : String
  mimeType : String
deriving DecidableEq, Repr

/-- gemini-media.ts resolveLocalFile: locate the file, prefer the truthy
declared MIME type over the extension lookup, fail when neither is
available or when the lowercased type does not carry the expected
category. -/
def resolveLocalFile (env : Env) (source : MediaSource) (kind : String) (index : Nat) :
    Except String PreparedFile × List Eff :=
  let loc := locateLocalMediaFile env source.data kind index
  match loc.1 with
  | .error e => (.error e, loc.2)
  | .ok locatedPath =>
    let declared := match source.mimeType with
      | some d => if trimL d = "" then none else some (trimL d)
      | none => none
    let inferred := match env.mimeLookup locatedPath with
      | some l => if l = "" then none else some l
      | none => none
    match declared <|> inferred with
    | none =>
      (.error ("Unable to determine MIME type for " ++ kind ++ " file at index " ++
        toString index ++ " (" ++ source.data ++ "). Please specify mimeType explicitly."), loc.2)
    | some mt =>
      let normalizedMime := lowerStr mt
      if !startsWithL normalizedMime (kind ++ "/") then
        (.error ("Local " ++ kind ++ " file at index " ++ toString index ++
          " must have a MIME type starting with \"" ++ kind ++ "/\" (resolved: " ++ mt ++ ")."), loc.2)
      else (.ok ⟨locatedPath, normalizedMime⟩, loc.2)

/-! ## gemini-media.ts: upload pipeline -/

/-- gemini-media.ts uploadLocalFile: resolve the local file, require the
Files API, upload, wait for activation, then build the fileData part from
the active handle's uri (falling back to its name, both via nullish
coalescing with a final falsy check) and its mimeType (falling back to
the prepared type).  Every failure throws, i.e. propagates. -/
def uploadLocalFile (env : Env) (cfg : PollCfg) (source : MediaSource) (kind : String)
    (index : Nat) : Except String Part × List Eff :=
  let prep := resolveLocalFile env source kind index
  match prep.1 with
  | .error e => (.error e, prep.2)
  | .ok prepared =>
    if !env.hasUpload then
      (.error "Gemini Files API is not available in this SDK version.", prep.2)
    else
      match env.upload prepared.path prepared.mimeType with
      | .error m => (.error m, prep.2 ++ [.upload prepared.path prepared.mimeType])
      | .ok uploaded =>
        let act := waitForFileActivation env cfg kind prepared.path uploaded
        let logs := prep.2 ++ .upload prepared.path prepared.mimeType :: act.2
        match act.1 with
        | .error e => (.error e, logs)
        | .ok activeFile =>
          let fileUriOpt := match activeFile.uri with
            | some u => some u
            | none => activeFile.name
          match fileUriOpt with
          | none =>
            (.error ("Gemini Files API did not return a URI for uploaded " ++ kind ++
              " file (" ++ prepared.path ++ ")."), logs)
          | some u =>
            if u = "" then
              (.error ("Gemini Files API did not return a URI for uploaded " ++ kind ++
                " file (" ++ prepared.path ++ ")."), logs)
            else (.ok (.fileData u (activeFile.mimeType.getD prepared.mimeType)), logs)

/-- gemini-media.ts uploadBufferAsFile: write the fetched bytes to a fresh
temp file named from the suggested or derived name, then stage it through
uploadLocalFile (the temp directory is removed afterwards, which has no
observable effect on the result). -/
def uploadBufferAsFile (env : Env) (cfg : PollCfg) (kind mimeType : String) (index : Nat)
    (suggestedName : Option String) : Except String Part × List Eff :=
  let ext := match env.mimeExt mimeType with
    | some e => if e = "" then none else some e
    | none => none
  let fallbackName := deriveDefaultName kind ext env.nowMs
  let baseName := sanitizeFileName (suggestedName.getD fallbackName)
  let tempPath := posixJoin env.tmpdirName baseName
  uploadLocalFile env cfg { type := .local, data := tempPath, mimeType := some mimeType } kind index

/-! ## gemini-media.ts: part builders -/

/-- gemini-media.ts createImagePart.  The whole URL branch sits in one
try/catch whose handler returns null, so a fetch failure, a non-image
content type, and any staging failure of fetched bytes all skip the
source; a local source delegates to uploadLocalFile with no catch, so its
failures propagate; any other tag is skipped. -/
def createImagePart (env : Env) (cfg : PollCfg) (source : MediaSource) (index : Nat) :
    Except String (Option Part) × List Eff :=
  match source.type with
  | .url =>
    match env.fetch source.data with
    | .error _ => (.ok none, [.fetch source.data])
    | .ok resp =>
      let mimeType := resolveFetchedMime env source.data resp
      if !startsWithL mimeType "image/" then (.ok none, [.fetch source.data])
      else
        let displayName := deriveDisplayNameFromSource env source.data
        let r := uploadBufferAsFile env cfg "image" mimeType index displayName
        match r.1 with
        | .ok part => (.ok (some part), .fetch source.data :: r.2)
        | .error _ => (.ok none, .fetch source.data :: r.2)
  | .local =>
    let r := uploadLocalFile env cfg source "image" index
    (r.1.map some, r.2)
  | .youtube => (.ok none, [])

/-- gemini-media.ts createVideoPart.  A youtube source becomes a direct
fileData part with the wildcard video type and no I/O; the URL branch
fetches, maps and validates the video MIME type (skipping unsupported
content) and stages the bytes, all failures inside its try/catch skipping
the source; a local source delegates to uploadLocalFile with no catch. -/
def createVideoPart (env : Env) (cfg : PollCfg) (source : MediaSource) (index : Nat) :
    Except String (Option Part) × List Eff :=
  match source.type with
  | .youtube => (.ok (some (.fileData source.data "video/*")), [])
  | .url =>
    match env.fetch source.data with
    | .error _ => (.ok none, [.fetch source.data])
    | .ok resp =>
      let inputMimeType := resolveFetchedMime env source.data resp
      let finalMimeType := lowerStr (mapVideoMimeType inputMimeType)
      if !isSupportedVideoMimeType finalMimeType then (.ok none, [.fetch source.data])
      else
        let displayName := deriveDisplayNameFromSource env source.data
        let r := uploadBufferAsFile env cfg "video" finalMimeType index displayName
        match r.1 with
        | .ok part => (.ok (some part), .fetch source.data :: r.2)
        | .error _ => (.ok none, .fetch source.data :: r.2)
  | .local =>
    let r := uploadLocalFile env cfg source "video" index
    (r.1.map some, r.2)

/-! ## gemini-media.ts: orchestrators -/

/-- The concurrent fan-out of Promise.all over the per-source builders:
every builder runs (its effects happen regardless of siblings) and all
settled results are collected in order. -/
def buildAll (f : Nat → MediaSource → Except String (Option Part) × List Eff) :
    Nat → List MediaSource → List (Except String (Option Part)) × List Eff
  | _, [] => ([], [])
  | i, s :: rest =>
    let r := f i s
    let rs := buildAll f (i + 1) rest
    (r.1 :: rs.1, r.2 ++ rs.2)

/-- Promise.all rejection: the first rejected builder result, if any. -/
def firstError : List (Except String (Option Part)) → Option String
  | [] => none
  | .error e :: _ => some e
  | .ok _ :: rest => firstError rest

/-- The null-dropping filter over settled builder results. -/
def collectParts (rs : List (Except String (Option Part))) : List Part :=
  rs.filterMap fun r => match r with
    | .ok (some p) => some p
    | _ => none

/-- The generateContent requests recorded in an effect log, in order. -/
def genReqs (l : List Eff) : List GenRequest :=
  l.filterMap fun e => match e with
    | .gen r => some r
    | _ => none

/-- Number of generateContent calls recorded in an effect log. -/
def countGen (l : List Eff) : Nat :=
  (genReqs l).length

/-- Number of files.get calls recorded in an effect log. -/
def countGet (l : List Eff) : Nat :=
  l.countP fun e => match e with
    | .getFile _ => true
    | _ => false

/-- gemini-media.ts analyzeImages: reject an empty source list before the
try block; build all parts, rethrowing the first builder failure wrapped
in the analysis-error prefix; fail (wrapped) when no part survives;
otherwise send the single generateContent request (prompt part first) and
extract the text, wrapping extraction failures as well. -/
def analyzeImages (env : Env) (modelName : String) (sources : List MediaSource)
    (promptText : String) : Except String String × List Eff :=
  if sources.isEmpty then (.error "No image sources provided.", [])
  else
    let cfg := mkPollCfg env
    let built := buildAll (fun i s => createImagePart env cfg s i) 0 sources
    match firstError built.1 with
    | some e => (.error ("Gemini API analysis error: " ++ e), built.2)
    | none =>
      let imageParts := collectParts built.1
      if imageParts.isEmpty then
        (.error ("Gemini API analysis error: " ++ "No valid images could be processed."), built.2)
      else
        let req : GenRequest := ⟨modelName, .text promptText :: imageParts⟩
        match env.genContent req with
        | .error m => (.error ("Gemini API analysis error: " ++ m), built.2 ++ [.gen req])
        | .ok resp =>
          match (extractText resp).result with
          | .ok t => (.ok t, built.2 ++ [.gen req])
          | .error m => (.error ("Gemini API analysis error: " ++ m), built.2 ++ [.gen req])

/-- gemini-media.ts analyzeVideos: the video analogue of analyzeImages,
with its own messages and error prefix. -/
def analyzeVideos (env : Env) (modelName : String) (sources : List MediaSource)
    (promptText : String) : Except String String × List Eff :=
  if sources.isEmpty then (.error "No video sources provided.", [])
  else
    let cfg := mkPollCfg env
    let built := buildAll (fun i s => createVideoPart env cfg s i) 0 sources
    match firstError built.1 with
    | some e => (.error ("Gemini API video analysis error: " ++ e), built.2)
    | none =>
      let videoParts := collectParts built.1
      if videoParts.isEmpty then
        (.error ("Gemini API video analysis error: " ++ "No valid videos could be processed or provided."), built.2)
      else
        let req : GenRequest := ⟨modelName, .text promptText :: videoParts⟩
        match env.genContent req with
        | .error m => (.error ("Gemini API video analysis error: " ++ m), built.2 ++ [.gen req])
        | .ok resp =>
          match (extractText resp).result with
          | .ok t => (.ok t, built.2 ++ [.gen req])
          | .error m => (.error ("Gemini API video analysis error: " ++ m), built.2 ++ [.gen req])

/-! ## Concrete environments for witnesses and counterexamples -/

/-- A closed environment in which every external collaborator fails or is
absent: the network is down, no file exists, no environment variable is
set, and the SDK exposes neither upload nor get. -/
def testEnv : Env :=
  { fetch := fun _ => .error "network down"
    mimeLookup := fun _ => none
    mimeExt := fun _ => none
    stat := fun _ => .enoent "ENOENT"
    envVar := fun _ => none
    cwd := "/workspace"
    homedir := "/home/user"
    fileURLToPathFn := fun _ => .error "bad url"
    jsonParseStrList := fun _ => none
    urlPathname := fun _ => none
    hasUpload := false
    upload := fun _ _ => .error "no upload"
    hasGet := false
    getFile := fun _ _ => .error "no get"
    genContent := fun _ => .error "no gen"
    tmpdirName := "/tmp/gemini-upload-abc"
    nowMs := 5 }

/-- A closed configuration environment for the local path resolver. -/
def cfgTestEnv : CfgEnv :=
  { envVar := fun _ => none
    cwd := "/workspace"
    homedir := "/home/user"
    fileURLToPathFn := fun _ => .error "bad url" }

/-! ## Shared lemmas: effect counting -/

lemma genReqs_nil : genReqs [] = [] := rfl

lemma genReqs_append (a b : List Eff) : genReqs (a ++ b) = genReqs a ++ genReqs b :=
  List.filterMap_append a b _

lemma countGen_append (a b : List Eff) : countGen (a ++ b) = countGen a + countGen b := by
  simp [countGen, genReqs_append]

lemma countGet_append (a b : List Eff) : countGet (a ++ b) = countGet a + countGet b := by
  simp [countGet, List.countP_append]

lemma countGet_delayList (i : Nat) : countGet (if 0 < i then [Eff.delay] else []) = 0 := by
  split <;> rfl

lemma genReqs_delayList (i : Nat) : genReqs (if 0 < i then [Eff.delay] else []) = [] := by
  split <;> rfl

lemma genReqs_fetch_cons (u : String) (l : List Eff) :
    genReqs (.fetch u :: l) = genReqs l := rfl

lemma genReqs_statF_cons (p : String) (l : List Eff) :
    genReqs (.statF p :: l) = genReqs l := rfl

lemma genReqs_upload_cons (p m : String) (l : List Eff) :
    genReqs (.upload p m :: l) = genReqs l := rfl

lemma genReqs_getFile_cons (n : String) (l : List Eff) :
    genReqs (.getFile n :: l) = genReqs l := rfl

lemma genReqs_gen_cons (r : GenRequest) (l : List Eff) :
    genReqs (.gen r :: l) = r :: genReqs l := rfl

lemma genReqs_pollGo (g : Nat → String → Except String FileHandle) (intervalMs : Nat)
    (kind sourcePath fileName : String) :
    ∀ remaining latest getCalls,
      genReqs (pollGo g intervalMs kind sourcePath fileName remaining latest getCalls).2 = [] := by
  intro remaining
  induction remaining with
  | zero => intro latest getCalls; rfl
  | succ r ih =>
    intro latest getCalls
    simp only [pollGo]
    split
    · rfl
    · split
      · rfl
      · split
        · rfl
        · split
          · simp [genReqs_append, genReqs_delayList, genReqs_getFile_cons, genReqs_nil, ih]
          · simp [genReqs_append, genReqs_delayList, genReqs_getFile_cons, genReqs_nil]

lemma genReqs_waitForFileActivation (env : Env) (cfg : PollCfg) (kind sourcePath : String)
    (initial : FileHandle) :
    genReqs (waitForFileActivation env cfg kind sourcePath initial).2 = [] := by
  unfold waitForFileActivation
  split
  · rfl
  · split
    · rfl
    · exact genReqs_pollGo _ _ _ _ _ _ _ _

lemma genReqs_tryCandidates (env : Env) (kind rawPath : String) (index : Nat) :
    ∀ cs attempted lastError,
      genReqs (tryCandidates env kind rawPath index cs attempted lastError).2 = [] := by
  intro cs
  induction cs with
  | nil => intro attempted lastError; rfl
  | cons c rest ih =>
    intro attempted lastError
    simp only [tryCandidates]
    split <;> simp [genReqs_statF_cons, genReqs_nil, ih]

lemma genReqs_locateLocalMediaFile (env : Env) (rawPath kind : String) (index : Nat) :
    genReqs (locateLocalMediaFile env rawPath kind index).2 = [] := by
  unfold locateLocalMediaFile
  split
  · rfl
  · split
    · rfl
    · exact genReqs_tryCandidates _ _ _ _ _ _ _

lemma genReqs_resolveLocalFile (env : Env) (source : MediaSource) (kind : String) (index : Nat) :
    genReqs (resolveLocalFile env source kind index).2 = [] := by
  simp only [resolveLocalFile]
  split
  · exact genReqs_locateLocalMediaFile env source.data kind index
  · split
    · exact genReqs_locateLocalMediaFile env source.data kind index
    · split <;> exact genReqs_locateLocalMediaFile env source.data kind index

lemma genReqs_uploadLocalFile (env : Env) (cfg : PollCfg) (source : MediaSource)
    (kind : String) (index : Nat) :
    genReqs (uploadLocalFile env cfg source kind index).2 = [] := by
  simp only [uploadLocalFile]
  split
  · exact genReqs_resolveLocalFile env source kind index
  · split
    · exact genReqs_resolveLocalFile env source kind index
    · split
      · simp [genReqs_append, genReqs_resolveLocalFile, genReqs_upload_cons, genReqs_nil]
      · repeat' split
        all_goals
          simp [genReqs_append, genReqs_resolveLocalFile, genReqs_upload_cons,
            genReqs_waitForFileActivation]

lemma genReqs_uploadBufferAsFile (env : Env) (cfg : PollCfg) (kind mimeType : String)
    (index : Nat) (suggestedName : Option String) :
    genReqs (uploadBufferAsFile env cfg kind mimeType index suggestedName).2 = [] := by
  simp only [uploadBufferAsFile]
  exact genReqs_uploadLocalFile _ _ _ _ _

lemma genReqs_createImagePart (env : Env) (cfg : PollCfg) (source : MediaSource) (index : Nat) :
    genReqs (createImagePart env cfg source index).2 = [] := by
  simp only [createImagePart]
  split
  · split
    · rfl
    · split
      · rfl
      · split <;>
          simp [genReqs_fetch_cons, genReqs_uploadBufferAsFile]
  · simp [genReqs_uploadLocalFile]
  · rfl

lemma genReqs_createVideoPart (env : Env) (cfg : PollCfg) (source : MediaSource) (index : Nat) :
    genReqs (createVideoPart env cfg source index).2 = [] := by
  simp only [createVideoPart]
  split
  · rfl
  · split
    · rfl
    · split
      · rfl
      · split <;>
          simp [genReqs_fetch_cons, genReqs_uploadBufferAsFile]
  · simp [genReqs_uploadLocalFile]

lemma genReqs_buildAll (f : Nat → MediaSource → Except String (Option Part) × List Eff)
    (hf : ∀ i s, genReqs (f i s).2 = []) :
    ∀ sources i, genReqs (buildAll f i sources).2 = [] := by
  intro sources
  induction sources with
  | nil => intro i; rfl
  | cons s rest ih =>
    intro i
    simp only [buildAll]
    simp [genReqs_append, hf, ih]

/-! ## Claim theorems -/

/-- C8 (confirmed): a YouTube (streaming-reference) video source becomes a
fileData part whose fileUri is exactly the source URL and whose mimeType is
the wildcard video type, with an empty effect log: no fetch, no file stat
or read, and no upload or staging call of any kind. -/
theorem youtube_source_direct_reference_no_io (env : Env) (cfg : PollCfg) (u : String)
    (mt : Option String) (i : Nat) :
    createVideoPart env cfg ⟨.youtube, u, mt⟩ i = (.ok (some (.fileData u "video/*")), []) :=
  rfl

/-- C6 (confirmed): the video type mapping sends video/mov to
video/quicktime, application/mp4 to video/mp4 and video/avi to
video/x-msvideo, matching the input case-insensitively; and a video URL
source whose mapped content type is not in the fixed supported set is
dropped by createVideoPart (null result, nothing forwarded, only the fetch
in the log). -/
theorem video_mime_mapping_and_unsupported_url_drop :
    (∀ s : String, lowerStr s = "video/mov" → mapVideoMimeType s = "video/quicktime")
    ∧ (∀ s : String, lowerStr s = "application/mp4" → mapVideoMimeType s = "video/mp4")
    ∧ (∀ s : String, lowerStr s = "video/avi" → mapVideoMimeType s = "video/x-msvideo")
    ∧ (∀ (env : Env) (cfg : PollCfg) (u : String) (mt : Option String) (i : Nat)
        (resp : FetchResp),
        env.fetch u = .ok resp →
        isSupportedVideoMimeType (lowerStr (mapVideoMimeType (resolveFetchedMime env u resp)))
          = false →
        createVideoPart env cfg ⟨.url, u, mt⟩ i = (.ok none, [.fetch u])) := by
  refine ⟨?_, ?_, ?_, ?_⟩
  · intro s h; simp [mapVideoMimeType, h]
  · intro s h; simp [mapVideoMimeType, h]
  · intro s h; simp [mapVideoMimeType, h]
  · intro env cfg u mt i resp hfetch hunsup
    simp [createVideoPart, hfetch, hunsup]

/-- C6 witness: the mapping holds at the concrete input Video/MOV, and a
URL source served as video/x-matroska (unsupported) is dropped. -/
theorem video_mime_mapping_witness :
    mapVideoMimeType "Video/MOV" = "video/quicktime"
    ∧ createVideoPart { testEnv with fetch := fun _ => .ok ⟨some "video/x-matroska"⟩ }
        (mkPollCfg testEnv) ⟨.url, "https://x/v.mkv", none⟩ 0 =
        (.ok none, [.fetch "https://x/v.mkv"]) :=
  ⟨video_mime_mapping_and_unsupported_url_drop.1 "Video/MOV" (by decide),
   video_mime_mapping_and_unsupported_url_drop.2.2.2
     { testEnv with fetch := fun _ => .ok ⟨some "video/x-matroska"⟩ }
     (mkPollCfg testEnv) "https://x/v.mkv" none 0 ⟨some "video/x-matroska"⟩
     rfl (by decide)⟩

/-- C4 (confirmed): a staged file observed in FAILED state stops the poll
loop at once, with no further status-refetch call (the returned effect log
is empty from that point), both from the initial upload result and from
any later poll iteration, and the thrown message carries the
service-reported error detail when one is present. -/
theorem failed_state_stops_polling_with_detail :
    (∀ (g : Nat → String → Except String FileHandle) (intervalMs : Nat)
        (kind sourcePath fileName : String) (remaining getCalls : Nat) (latest : FileHandle),
        latest.state = some "FAILED" →
        pollGo g intervalMs kind sourcePath fileName (remaining + 1) latest getCalls =
          (.error (failedMessage kind sourcePath latest.errMessage), []))
    ∧ (∀ (env : Env) (cfg : PollCfg) (kind sourcePath nm : String) (initial : FileHandle),
        initial.name = some nm → nm ≠ "" → env.hasGet = true →
        initial.state = some "FAILED" → 1 ≤ cfg.maxAttempts →
        waitForFileActivation env cfg kind sourcePath initial =
          (.error (failedMessage kind sourcePath initial.errMessage), []))
    ∧ (∀ (kind sourcePath r : String), r ≠ "" →
        failedMessage kind sourcePath (some r) =
          failedMessage kind sourcePath none ++ (" Reason: " ++ r)) := by
  refine ⟨?_, ?_, ?_⟩
  · intro g intervalMs kind sourcePath fileName remaining getCalls latest hst
    simp [pollGo, hst]
  · intro env cfg kind sourcePath nm initial hname hnm hget hst hmax
    obtain ⟨k, hk⟩ : ∃ k, cfg.maxAttempts = k + 1 := ⟨cfg.maxAttempts - 1, by omega⟩
    simp [waitForFileActivation, hname, hnm, hget, hk, pollGo, hst]
  · intro kind sourcePath r hr
    simp [failedMessage, hr, String.append_empty]

/-- C4 witness: a concrete handle that is FAILED on the initial upload
result fails immediately with the reason in the message and no get call. -/
theorem failed_state_witness :
    waitForFileActivation { testEnv with hasGet := true } ⟨60, 2000⟩ "image" "/p"
        { name := some "files/f1", state := some "FAILED", errMessage := some "boom" } =
      (.error (failedMessage "image" "/p" (some "boom")), [])
    ∧ failedMessage "image" "/p" (some "boom") =
        failedMessage "image" "/p" none ++ (" Reason: " ++ "boom") :=
  ⟨failed_state_stops_polling_with_detail.2.1 { testEnv with hasGet := true } ⟨60, 2000⟩
      "image" "/p" "files/f1"
      { name := some "files/f1", state := some "FAILED", errMessage := some "boom" }
      rfl (by decide) rfl rfl (by decide),
   failed_state_stops_polling_with_detail.2.2 "image" "/p" "boom" (by decide)⟩

lemma countPGet_delay (i : Nat) :
    List.countP (fun e => match e with | Eff.getFile _ => true | _ => false)
      (if 0 < i then [Eff.delay] else []) = 0 := by
  split <;> rfl

/-- A handle as first reported by upload: named, still processing. -/
def pendingHandle : FileHandle := ⟨some "f", none, none, some "PENDING", none⟩

/-- The handle once the staged file has become usable. -/
def activeHandle : FileHandle :=
  ⟨some "f", some "files/f", some "image/png", some "ACTIVE", none⟩

/-- An environment whose get oracle answers PENDING once, then ACTIVE. -/
def pollEnv : Env :=
  { testEnv with
    hasGet := true
    getFile := fun k _ => if k = 0 then .ok pendingHandle else .ok activeHandle }

/-- An environment with a stattable file and an upload call returning a
nameless handle carrying a uri. -/
def fileEnv : Env :=
  { testEnv with
    stat := fun _ => .file
    hasUpload := true
    upload := fun _ _ => .ok ⟨none, some "files/u9", some "image/png", none, none⟩ }

/-- C3 (confirmed): a staged file that reports PENDING on the upload
result and on the first re-fetch, then ACTIVE on the second re-fetch,
makes waitForFileActivation issue exactly 2 status-refetch (get) calls and
return the ACTIVE handle, provided the configured maximum attempt count is
at least 3. -/
theorem pending_twice_then_active_two_refetches (env : Env) (cfg : PollCfg)
    (kind sourcePath nm : String) (initial pendH actH : FileHandle)
    (h3 : 3 ≤ cfg.maxAttempts)
    (hname : initial.name = some nm) (hnm : nm ≠ "") (hget : env.hasGet = true)
    (hst : initial.state = some "PENDING")
    (hg0 : ∀ s, env.getFile 0 s = .ok pendH) (hp : pendH.state = some "PENDING")
    (hg1 : ∀ s, env.getFile 1 s = .ok actH) (ha : actH.state = some "ACTIVE") :
    (waitForFileActivation env cfg kind sourcePath initial).1 = .ok actH
    ∧ countGet (waitForFileActivation env cfg kind sourcePath initial).2 = 2 := by
  obtain ⟨k, hk⟩ : ∃ k, cfg.maxAttempts = (k + 2) + 1 := ⟨cfg.maxAttempts - 3, by omega⟩
  simp [waitForFileActivation, hname, hnm, hget, hk, pollGo, hst, hg0, hp, hg1, ha,
    countGet_append, countGet_delayList, countGet, List.countP_cons, countPGet_delay]

/-- C3 witness: with a 60-attempt configuration, an oracle that answers
PENDING then ACTIVE yields the ACTIVE handle after exactly two get calls. -/
theorem pending_twice_witness :
    (waitForFileActivation pollEnv ⟨60, 0⟩ "image" "/p" pendingHandle).1 = .ok activeHandle
    ∧ countGet (waitForFileActivation pollEnv ⟨60, 0⟩ "image" "/p" pendingHandle).2 = 2 :=
  pending_twice_then_active_two_refetches pollEnv ⟨60, 0⟩ "image" "/p" "f"
    pendingHandle pendingHandle activeHandle
    (by decide) rfl (by decide) rfl rfl (fun s => by rfl) rfl (fun s => by rfl) rfl

/-- C10 (confirmed): when the uploaded handle has no truthy name or the
files module has no get function, waitForFileActivation returns the
initial handle unchanged with an empty effect log (no re-fetch, no delay),
whatever its state; uploadLocalFile then builds the fileData part from
that handle, taking its uri when truthy and otherwise its name. -/
theorem missing_name_or_get_bypasses_polling :
    (∀ (env : Env) (cfg : PollCfg) (kind sourcePath : String) (initial : FileHandle),
      initial.name = none ∨ initial.name = some "" ∨ env.hasGet = false →
      waitForFileActivation env cfg kind sourcePath initial = (.ok initial, []))
    ∧ (∀ (env : Env) (cfg : PollCfg) (h : FileHandle) (u : String),
        env.stat "/media/a.jpg" = .file → env.hasUpload = true →
        env.upload "/media/a.jpg" "image/jpeg" = .ok h →
        h.name = none → h.uri = some u → u ≠ "" →
        uploadLocalFile env cfg ⟨.local, "/media/a.jpg", some "image/jpeg"⟩ "image" 0 =
          (.ok (.fileData u (h.mimeType.getD "image/jpeg")),
            [.statF "/media/a.jpg", .upload "/media/a.jpg" "image/jpeg"]))
    ∧ (∀ (env : Env) (cfg : PollCfg) (h : FileHandle) (nm : String),
        env.stat "/media/a.jpg" = .file → env.hasUpload = true →
        env.upload "/media/a.jpg" "image/jpeg" = .ok h →
        env.hasGet = false → h.uri = none → h.name = some nm → nm ≠ "" →
        uploadLocalFile env cfg ⟨.local, "/media/a.jpg", some "image/jpeg"⟩ "image" 0 =
          (.ok (.fileData nm (h.mimeType.getD "image/jpeg")),
            [.statF "/media/a.jpg", .upload "/media/a.jpg" "image/jpeg"])) := by
  refine ⟨?_, ?_, ?_⟩
  · intro env cfg kind sourcePath initial hcase
    rcases hcase with h | h | h
    · simp [waitForFileActivation, h]
    · simp [waitForFileActivation, h]
    · cases hn : initial.name <;> simp [waitForFileActivation, h, hn]
  · intro env cfg h u hstat hup hupl hn huri hu
    have e0 : locateLocalMediaFile env "/media/a.jpg" "image" 0 =
        tryCandidates env "image" "/media/a.jpg" 0 ["/media/a.jpg"] [] none := rfl
    have e1 : locateLocalMediaFile env "/media/a.jpg" "image" 0 =
        (.ok "/media/a.jpg", [.statF "/media/a.jpg"]) := by
      rw [e0]; simp [tryCandidates, hstat]
    have r0 : resolveLocalFile env ⟨.local, "/media/a.jpg", some "image/jpeg"⟩ "image" 0 =
        (.ok ⟨"/media/a.jpg", "image/jpeg"⟩, [.statF "/media/a.jpg"]) := by
      have ht : trimL "image/jpeg" = "image/jpeg" := rfl
      have hl : lowerStr "image/jpeg" = "image/jpeg" := rfl
      have hs : startsWithL "image/jpeg" "image/" = true := rfl
      simp [resolveLocalFile, e1, ht, hl, hs]
    simp [uploadLocalFile, r0, hup, hupl, waitForFileActivation, hn, huri, hu]
  · intro env cfg h nm hstat hup hupl hget huri hn hnm
    have e0 : locateLocalMediaFile env "/media/a.jpg" "image" 0 =
        tryCandidates env "image" "/media/a.jpg" 0 ["/media/a.jpg"] [] none := rfl
    have e1 : locateLocalMediaFile env "/media/a.jpg" "image" 0 =
        (.ok "/media/a.jpg", [.statF "/media/a.jpg"]) := by
      rw [e0]; simp [tryCandidates, hstat]
    have r0 : resolveLocalFile env ⟨.local, "/media/a.jpg", some "image/jpeg"⟩ "image" 0 =
        (.ok ⟨"/media/a.jpg", "image/jpeg"⟩, [.statF "/media/a.jpg"]) := by
      have ht : trimL "image/jpeg" = "image/jpeg" := rfl
      have hl : lowerStr "image/jpeg" = "image/jpeg" := rfl
      have hs : startsWithL "image/jpeg" "image/" = true := rfl
      simp [resolveLocalFile, e1, ht, hl, hs]
    simp [uploadLocalFile, r0, hup, hupl, waitForFileActivation, hn, hnm, hget, huri]

/-- C10 witness: a FAILED handle without a name is returned unchanged with
no polling, and a nameless uploaded handle with a uri yields the part
built from that uri. -/
theorem missing_name_witness :
    waitForFileActivation testEnv ⟨60, 2000⟩ "image" "/p"
        ⟨none, none, none, some "FAILED", none⟩ =
      (.ok ⟨none, none, none, some "FAILED", none⟩, [])
    ∧ uploadLocalFile fileEnv ⟨60, 2000⟩ ⟨.local, "/media/a.jpg", some "image/jpeg"⟩
        "image" 0 =
      (.ok (.fileData "files/u9" "image/png"),
        [.statF "/media/a.jpg", .upload "/media/a.jpg" "image/jpeg"]) :=
  ⟨missing_name_or_get_bypasses_polling.1 testEnv ⟨60, 2000⟩ "image" "/p"
      ⟨none, none, none, some "FAILED", none⟩ (Or.inl rfl),
   missing_name_or_get_bypasses_polling.2.1 fileEnv ⟨60, 2000⟩
      ⟨none, some "files/u9", some "image/png", none, none⟩ "files/u9"
      (by rfl) (by rfl) (by rfl) rfl rfl (by decide)⟩

lemma pollGo_all_pending (g : Nat → String → Except String FileHandle) (intervalMs : Nat)
    (kind sourcePath fileName : String)
    (hg : ∀ k nm, ∃ h', g k nm = .ok h' ∧ h'.state = some "PENDING") :
    ∀ remaining latest getCalls, latest.state = some "PENDING" →
      (pollGo g intervalMs kind sourcePath fileName remaining latest getCalls).1 =
        .error (timeoutMessage kind sourcePath (some "PENDING"))
      ∧ countGet (pollGo g intervalMs kind sourcePath fileName remaining latest getCalls).2 =
          remaining - 1 := by
  intro remaining
  induction remaining with
  | zero => intro latest getCalls hst; simp [pollGo, hst, countGet]
  | succ r ih =>
    intro latest getCalls hst
    by_cases hr : r = 0
    · subst hr; simp [pollGo, hst, countGet]
    · obtain ⟨h', hg', hst'⟩ := hg getCalls (latest.name.getD fileName)
      have IH := ih h' (getCalls + 1) hst'
      refine ⟨?_, ?_⟩
      · simp [pollGo, hst, hr, hg', IH.1]
      · simp [pollGo, hst, hr, hg', countGet_append, countGet_delayList, countGet,
          List.countP_cons, countPGet_delay]
        have h2 := IH.2
        simp [countGet] at h2
        omega

lemma parseIntegerEnv_clamped (env : Env) (name : String) (fallback min max : Int)
    (h1 : min ≤ fallback) (h2 : fallback ≤ max) (h3 : min ≤ max) :
    min ≤ parseIntegerEnv env name fallback min max
    ∧ parseIntegerEnv env name fallback min max ≤ max := by
  unfold parseIntegerEnv
  split
  · omega
  · split
    · omega
    · split
      · omega
      · constructor
        · simp [Int.min_def, Int.max_def]
          split <;> split <;> omega
        · simp [Int.min_def, Int.max_def]
          split <;> split <;> omega

/-- An environment (no poll variables set, so the defaults 60 attempts and
2000 ms apply) whose staged file never leaves PENDING. -/
def timeoutEnv : Env :=
  { testEnv with
    hasGet := true
    getFile := fun _ _ => .ok pendingHandle }

/-- C5 (confirmed): for a staged file that never reaches ACTIVE or FAILED,
the poll loop terminates after at most the configured maximum attempt
count, which is parsed from GEMINI_FILE_POLL_MAX_ATTEMPTS, clamped into
1..1000 and defaulted to 60, issuing exactly maxAttempts - 1 re-fetches
and then failing with the timeout error that names the last observed
state. -/
theorem poll_loop_bounded_timeout (env : Env) (kind sourcePath nm : String)
    (initial : FileHandle)
    (hname : initial.name = some nm) (hnm : nm ≠ "") (hget : env.hasGet = true)
    (hst : initial.state = some "PENDING")
    (hg : ∀ k s, ∃ h', env.getFile k s = .ok h' ∧ h'.state = some "PENDING") :
    1 ≤ resolveFilePollMaxAttempts env
    ∧ resolveFilePollMaxAttempts env ≤ 1000
    ∧ (env.envVar "GEMINI_FILE_POLL_MAX_ATTEMPTS" = none →
        resolveFilePollMaxAttempts env = 60)
    ∧ (waitForFileActivation env (mkPollCfg env) kind sourcePath initial).1 =
        .error (timeoutMessage kind sourcePath (some "PENDING"))
    ∧ countGet (waitForFileActivation env (mkPollCfg env) kind sourcePath initial).2 =
        (mkPollCfg env).maxAttempts - 1 := by
  have hc := parseIntegerEnv_clamped env "GEMINI_FILE_POLL_MAX_ATTEMPTS" 60 1 1000
    (by omega) (by omega) (by omega)
  have hw : waitForFileActivation env (mkPollCfg env) kind sourcePath initial =
      pollGo env.getFile (mkPollCfg env).intervalMs kind sourcePath nm
        (mkPollCfg env).maxAttempts initial 0 := by
    simp [waitForFileActivation, hname, hnm, hget]
  have hp := pollGo_all_pending env.getFile (mkPollCfg env).intervalMs kind sourcePath nm hg
    (mkPollCfg env).maxAttempts initial 0 hst
  exact ⟨hc.1, hc.2, fun h => by simp [resolveFilePollMaxAttempts, parseIntegerEnv, h],
    by rw [hw]; exact hp.1, by rw [hw]; exact hp.2⟩

/-- C5 witness: under the default configuration (60 attempts), an
always-PENDING staged file times out after exactly 59 re-fetches with the
message naming PENDING. -/
theorem poll_timeout_witness :
    (waitForFileActivation timeoutEnv (mkPollCfg timeoutEnv) "image" "/p" pendingHandle).1 =
      .error (timeoutMessage "image" "/p" (some "PENDING"))
    ∧ countGet
        (waitForFileActivation timeoutEnv (mkPollCfg timeoutEnv) "image" "/p" pendingHandle).2 =
      (mkPollCfg timeoutEnv).maxAttempts - 1 :=
  ⟨(poll_loop_bounded_timeout timeoutEnv "image" "/p" "f" pendingHandle rfl (by decide)
      (by rfl) rfl (fun k s => ⟨pendingHandle, by rfl, rfl⟩)).2.2.2.1,
   (poll_loop_bounded_timeout timeoutEnv "image" "/p" "f" pendingHandle rfl (by decide)
      (by rfl) rfl (fun k s => ⟨pendingHandle, by rfl, rfl⟩)).2.2.2.2⟩

/-- A response whose top-level text is whitespace-only (a non-empty
string) while the first candidate carries usable text. -/
def blankTopResp : GenResponse :=
  { text := some " "
    candidates := some [{ finishReason := some "STOP", content := some ⟨some [⟨some "x"⟩]⟩ }] }

/-- C7 counterexample: the top-level text field " " is a non-empty string,
yet extractText does not return it — the code requires the trimmed text to
be non-empty and falls through to the first candidate instead. -/
theorem top_text_whitespace_counterexample :
    blankTopResp.text = some " " ∧ " " ≠ ""
    ∧ (extractText blankTopResp).result = .ok "x"
    ∧ (extractText blankTopResp).result ≠ .ok " " := by
  refine ⟨rfl, by decide, rfl, ?_⟩
  intro h
  rw [show (extractText blankTopResp).result = Except.ok "x" from rfl] at h
  simp at h

/-- C7 (amended, corrected): extractText returns the top-level text field
when it is non-empty after trimming whitespace; otherwise, with candidates
present, a truthy content-safety block reason throws, a non-normal finish
reason (neither STOP nor MAX_TOKENS) with no candidate text throws, and a
non-normal finish reason with candidate text present returns that partial
text while only raising the warning flag. -/
theorem extract_text_rules :
    (∀ (r : GenResponse) (t : String), r.text = some t → trimL t ≠ "" →
      (extractText r).result = .ok t)
    ∧ (∀ (r : GenResponse) (b : String), topTextUsable r = false →
        (r.candidates.getD []).length ≠ 0 →
        r.promptFeedback.bind PromptFeedback.blockReason = some b → b ≠ "" →
        (extractText r).result = .error ("Gemini API blocked the prompt: " ++ b))
    ∧ (∀ (r : GenResponse) (fr : String), topTextUsable r = false →
        (r.candidates.getD []).length ≠ 0 →
        r.promptFeedback.bind PromptFeedback.blockReason = none →
        (r.candidates.getD []).head?.bind Candidate.finishReason = some fr →
        fr ≠ "" → fr ≠ "STOP" → fr ≠ "MAX_TOKENS" →
        ((((r.candidates.getD []).head?.bind Candidate.content).bind
          RespContent.parts).bind List.head?).bind RespPart.text = none →
        extractText r = ⟨.error "Gemini API returned no text content.", true⟩)
    ∧ (∀ (r : GenResponse) (fr t : String), topTextUsable r = false →
        (r.candidates.getD []).length ≠ 0 →
        r.promptFeedback.bind PromptFeedback.blockReason = none →
        (r.candidates.getD []).head?.bind Candidate.finishReason = some fr →
        fr ≠ "" → fr ≠ "STOP" → fr ≠ "MAX_TOKENS" →
        ((((r.candidates.getD []).head?.bind Candidate.content).bind
          RespContent.parts).bind List.head?).bind RespPart.text = some t →
        t ≠ "" →
        extractText r = ⟨.ok t, true⟩) := by
  refine ⟨?_, ?_, ?_, ?_⟩
  · intro r t h1 h2
    simp [extractText, topTextUsable, h1, h2]
  · intro r b h0 h1 h2 hb
    simp [extractText, h0, extractTextRest, h1, h2, hb]
  · intro r fr h0 h1 h2 hfr hfr1 hfr2 hfr3 htext
    simp [extractText, h0, extractTextRest, h1, h2, extractTextCand, hfr,
      hfr1, hfr2, hfr3, htext]
  · intro r fr t h0 h1 h2 hfr hfr1 hfr2 hfr3 htext ht
    simp [extractText, h0, extractTextRest, h1, h2, extractTextCand, hfr,
      hfr1, hfr2, hfr3, htext, ht]

/-- A response blocked by prompt feedback, with a contentless candidate. -/
def blockedResp : GenResponse :=
  { candidates := some [⟨none, none⟩]
    promptFeedback := some ⟨some "BLOCKED"⟩ }

/-- A response finishing with SAFETY but carrying partial text. -/
def safetyResp : GenResponse :=
  { candidates :=
      some [{ finishReason := some "SAFETY", content := some ⟨some [⟨some "partial"⟩]⟩ }] }

/-- C7 witness for the amended rules at concrete responses: the blocked
case throws, and a SAFETY finish with partial text returns the text with
the warning flag raised. -/
theorem extract_text_rules_witness :
    (extractText blockedResp).result = .error ("Gemini API blocked the prompt: " ++ "BLOCKED")
    ∧ extractText safetyResp = ⟨.ok "partial", true⟩ :=
  ⟨extract_text_rules.2.1 blockedResp "BLOCKED" rfl (by decide) rfl (by decide),
   extract_text_rules.2.2.2 safetyResp "SAFETY" "partial" rfl (by decide) rfl rfl
      (by decide) (by decide) (by decide) rfl (by decide)⟩

lemma firstError_all_none :
    ∀ rs : List (Except String (Option Part)), (∀ r ∈ rs, r = .ok none) →
      firstError rs = none := by
  intro rs
  induction rs with
  | nil => intro _; rfl
  | cons r rest ih =>
    intro h
    have hr := h r (List.mem_cons_self _ _)
    subst hr
    simpa [firstError] using ih (fun x hx => h x (List.mem_cons_of_mem _ hx))

lemma collectParts_all_none :
    ∀ rs : List (Except String (Option Part)), (∀ r ∈ rs, r = .ok none) →
      collectParts rs = [] := by
  intro rs
  induction rs with
  | nil => intro _; rfl
  | cons r rest ih =>
    intro h
    have hr := h r (List.mem_cons_self _ _)
    subst hr
    simpa [collectParts] using ih (fun x hx => h x (List.mem_cons_of_mem _ hx))

lemma buildAll_results_all_none (f : Nat → MediaSource → Except String (Option Part) × List Eff) :
    ∀ (ss : List MediaSource) (i : Nat),
      (∀ j s, ss.get? j = some s → (f (i + j) s).1 = .ok none) →
      ∀ r ∈ (buildAll f i ss).1, r = .ok none := by
  intro ss
  induction ss with
  | nil => intro i h r hr; simp [buildAll] at hr
  | cons s rest ih =>
    intro i h r hr
    simp only [buildAll] at hr
    rcases List.mem_cons.mp hr with h1 | h1
    · subst h1
      have h0 := h 0 s (by simp)
      simpa using h0
    · refine ih (i + 1) (fun j s2 hj => ?_) r h1
      have hx := h (j + 1) s2 (by simpa using hj)
      rw [show i + (j + 1) = i + 1 + j by omega] at hx
      exact hx

/-- C2 (confirmed): an empty source list is rejected with the
no-sources-provided error before anything runs, and a list whose sources
all resolve to null fails with the wrapped no-valid-sources error; in both
cases zero generateContent calls are issued (for images and videos). -/
theorem empty_or_all_invalid_rejected_without_inference :
    (∀ (env : Env) (modelName promptText : String),
      analyzeImages env modelName [] promptText = (.error "No image sources provided.", [])
      ∧ analyzeVideos env modelName [] promptText = (.error "No video sources provided.", []))
    ∧ (∀ (env : Env) (modelName promptText : String) (sources : List MediaSource),
        sources ≠ [] →
        (∀ j s, sources.get? j = some s →
          (createImagePart env (mkPollCfg env) s j).1 = .ok none) →
        (analyzeImages env modelName sources promptText).1 =
          .error ("Gemini API analysis error: " ++ "No valid images could be processed.")
        ∧ countGen (analyzeImages env modelName sources promptText).2 = 0)
    ∧ (∀ (env : Env) (modelName promptText : String) (sources : List MediaSource),
        sources ≠ [] →
        (∀ j s, sources.get? j = some s →
          (createVideoPart env (mkPollCfg env) s j).1 = .ok none) →
        (analyzeVideos env modelName sources promptText).1 =
          .error ("Gemini API video analysis error: " ++
            "No valid videos could be processed or provided.")
        ∧ countGen (analyzeVideos env modelName sources promptText).2 = 0) := by
  refine ⟨fun env m p => ⟨rfl, rfl⟩, ?_, ?_⟩
  · intro env modelName promptText sources hne h
    have hie : sources.isEmpty = false := by cases sources <;> simp_all
    have hall := buildAll_results_all_none
      (fun i s => createImagePart env (mkPollCfg env) s i) sources 0 (by simpa using h)
    have hfe := firstError_all_none _ hall
    have hcp := collectParts_all_none _ hall
    have hgr := genReqs_buildAll (fun i s => createImagePart env (mkPollCfg env) s i)
      (fun i s => genReqs_createImagePart env (mkPollCfg env) s i) sources 0
    constructor
    · simp [analyzeImages, hie, hfe, hcp]
    · simp [analyzeImages, hie, hfe, hcp, countGen, hgr]
  · intro env modelName promptText sources hne h
    have hie : sources.isEmpty = false := by cases sources <;> simp_all
    have hall := buildAll_results_all_none
      (fun i s => createVideoPart env (mkPollCfg env) s i) sources 0 (by simpa using h)
    have hfe := firstError_all_none _ hall
    have hcp := collectParts_all_none _ hall
    have hgr := genReqs_buildAll (fun i s => createVideoPart env (mkPollCfg env) s i)
      (fun i s => genReqs_createVideoPart env (mkPollCfg env) s i) sources 0
    constructor
    · simp [analyzeVideos, hie, hfe, hcp]
    · simp [analyzeVideos, hie, hfe, hcp, countGen, hgr]

/-- C2 witness: with the network down and no local files, an empty list is
rejected with the exact message, and a single unreachable URL source is
rejected with the wrapped no-valid-images error and zero
generateContent calls. -/
theorem empty_or_all_invalid_witness :
    analyzeImages testEnv "m" [] "p" = (.error "No image sources provided.", [])
    ∧ ((analyzeImages testEnv "m" [⟨.url, "https://a/b.png", none⟩] "p").1 =
        .error ("Gemini API analysis error: " ++ "No valid images could be processed.")
      ∧ countGen (analyzeImages testEnv "m" [⟨.url, "https://a/b.png", none⟩] "p").2 = 0) :=
  ⟨(empty_or_all_invalid_rejected_without_inference.1 testEnv "m" "p").1,
   empty_or_all_invalid_rejected_without_inference.2.1 testEnv "m" "p"
     [⟨.url, "https://a/b.png", none⟩] (by simp)
     (fun j s hj => by
       cases j with
       | zero =>
         simp at hj
         subst hj
         rfl
       | succ n => simp at hj)⟩

/-- The batch of the C1 counterexample: a valid YouTube source followed by
a missing local file. -/
def mixedBatch : List MediaSource :=
  [⟨.youtube, "https://youtu.be/x", none⟩, ⟨.local, "/missing/file.mp4", some "video/mp4"⟩]

/-- C1 counterexample: a batch with one valid source and one missing local
file does not proceed with the surviving parts — the local failure
propagates out of the Promise.all, the whole call fails with the wrapped
file-access error, and zero inference requests are issued (the
repository's own test, analyzeImages throws when local file is missing,
pins this behaviour). -/
theorem local_file_failure_aborts_batch :
    (analyzeVideos testEnv "model" mixedBatch "prompt").1 =
      .error ("Gemini API video analysis error: " ++
        ("Failed to access video file at index 1 (/missing/file.mp4): ENOENT." ++
          " Checked: /missing/file.mp4"))
    ∧ countGen (analyzeVideos testEnv "model" mixedBatch "prompt").2 = 0 :=
  ⟨rfl, rfl⟩

/-- C1 (amended, corrected): per-source skip semantics hold for URL
sources only — a URL source whose fetch fails, or whose fetched content
type mismatches the category (images) or falls outside the supported set
(videos), resolves to null and the batch still issues the single inference
request with the surviving parts; a missing/inaccessible local file, by
contrast, aborts the whole call (see the counterexample). -/
theorem url_source_failures_skipped_batch_proceeds :
    (∀ (env : Env) (modelName promptText u bad m : String),
      env.fetch bad = .error m →
      genReqs (analyzeVideos env modelName
        [⟨.youtube, u, none⟩, ⟨.url, bad, none⟩] promptText).2 =
        [⟨modelName, [.text promptText, .fileData u "video/*"]⟩])
    ∧ (∀ (env : Env) (modelName promptText u bad : String) (resp : FetchResp),
        env.fetch bad = .ok resp →
        isSupportedVideoMimeType (lowerStr (mapVideoMimeType (resolveFetchedMime env bad resp)))
          = false →
        genReqs (analyzeVideos env modelName
          [⟨.youtube, u, none⟩, ⟨.url, bad, none⟩] promptText).2 =
          [⟨modelName, [.text promptText, .fileData u "video/*"]⟩])
    ∧ (∀ (env : Env) (modelName promptText good bad m u : String) (h : FileHandle),
        env.fetch good = .ok ⟨some "image/png"⟩ →
        env.fetch bad = .error m →
        (∀ q, env.urlPathname q = none) →
        (∀ q, env.mimeExt q = none) →
        env.tmpdirName = "/tmp/gemini-upload-abc" →
        env.nowMs = 5 →
        (∀ q, env.stat q = .file) →
        env.hasUpload = true →
        (∀ q mt, env.upload q mt = .ok h) →
        h.name = none → h.uri = some u → u ≠ "" →
        genReqs (analyzeImages env modelName
          [⟨.url, good, none⟩, ⟨.url, bad, none⟩] promptText).2 =
          [⟨modelName, [.text promptText, .fileData u (h.mimeType.getD "image/png")]⟩])
    ∧ (∀ (env : Env) (modelName promptText good bad u : String) (h : FileHandle)
        (resp : FetchResp),
        env.fetch good = .ok ⟨some "image/png"⟩ →
        env.fetch bad = .ok resp →
        startsWithL (resolveFetchedMime env bad resp) "image/" = false →
        (∀ q, env.urlPathname q = none) →
        (∀ q, env.mimeExt q = none) →
        env.tmpdirName = "/tmp/gemini-upload-abc" →
        env.nowMs = 5 →
        (∀ q, env.stat q = .file) →
        env.hasUpload = true →
        (∀ q mt, env.upload q mt = .ok h) →
        h.name = none → h.uri = some u → u ≠ "" →
        genReqs (analyzeImages env modelName
          [⟨.url, good, none⟩, ⟨.url, bad, none⟩] promptText).2 =
          [⟨modelName, [.text promptText, .fileData u (h.mimeType.getD "image/png")]⟩]) := by
  have himg : ∀ (env : Env) (modelName promptText good bad u : String) (h : FileHandle),
      env.fetch good = .ok ⟨some "image/png"⟩ →
      (∀ q, env.urlPathname q = none) →
      (∀ q, env.mimeExt q = none) →
      env.tmpdirName = "/tmp/gemini-upload-abc" →
      env.nowMs = 5 →
      (∀ q, env.stat q = .file) →
      env.hasUpload = true →
      (∀ q mt, env.upload q mt = .ok h) →
      h.name = none → h.uri = some u → u ≠ "" →
      createImagePart env (mkPollCfg env) ⟨.url, good, none⟩ 0 =
        (.ok (some (.fileData u (h.mimeType.getD "image/png"))),
          [.fetch good, .statF "/tmp/gemini-upload-abc/image-5",
           .upload "/tmp/gemini-upload-abc/image-5" "image/png"]) := by
    intro env modelName promptText good bad u h hgood hpn hext htmp hnow hstat hup hupl
      hn huri hu
    have e1 : locateLocalMediaFile env "/tmp/gemini-upload-abc/image-5" "image" 0 =
        (.ok "/tmp/gemini-upload-abc/image-5", [.statF "/tmp/gemini-upload-abc/image-5"]) := by
      rw [show locateLocalMediaFile env "/tmp/gemini-upload-abc/image-5" "image" 0 =
        tryCandidates env "image" "/tmp/gemini-upload-abc/image-5" 0
          ["/tmp/gemini-upload-abc/image-5"] [] none from rfl]
      simp [tryCandidates, hstat]
    have r0 : resolveLocalFile env
        ⟨.local, "/tmp/gemini-upload-abc/image-5", some "image/png"⟩ "image" 0 =
        (.ok ⟨"/tmp/gemini-upload-abc/image-5", "image/png"⟩,
          [.statF "/tmp/gemini-upload-abc/image-5"]) := by
      have ht : trimL "image/png" = "image/png" := rfl
      have hl : lowerStr "image/png" = "image/png" := rfl
      have hs : startsWithL "image/png" "image/" = true := rfl
      simp [resolveLocalFile, e1, ht, hl, hs]
    have u0 : uploadLocalFile env (mkPollCfg env)
        ⟨.local, "/tmp/gemini-upload-abc/image-5", some "image/png"⟩ "image" 0 =
        (.ok (.fileData u (h.mimeType.getD "image/png")),
          [.statF "/tmp/gemini-upload-abc/image-5",
           .upload "/tmp/gemini-upload-abc/image-5" "image/png"]) := by
      simp [uploadLocalFile, r0, hup, hupl, waitForFileActivation, hn, huri, hu]
    have ub : uploadBufferAsFile env (mkPollCfg env) "image" "image/png" 0 none =
        (.ok (.fileData u (h.mimeType.getD "image/png")),
          [.statF "/tmp/gemini-upload-abc/image-5",
           .upload "/tmp/gemini-upload-abc/image-5" "image/png"]) := by
      have hx : env.mimeExt "image/png" = none := hext _
      simp [uploadBufferAsFile, hx, htmp, hnow]
      exact u0
    have hm : resolveFetchedMime env good ⟨some "image/png"⟩ = "image/png" := rfl
    have hsw : startsWithL "image/png" "image/" = true := rfl
    simp [createImagePart, hgood, hm, hsw, deriveDisplayNameFromSource, hpn, ub]
  refine ⟨?_, ?_, ?_, ?_⟩
  · intro env modelName promptText u bad m hbad
    have hb : buildAll (fun i s => createVideoPart env (mkPollCfg env) s i) 0
        [⟨.youtube, u, none⟩, ⟨.url, bad, none⟩] =
        ([.ok (some (.fileData u "video/*")), .ok none], [.fetch bad]) := by
      simp [buildAll, createVideoPart, hbad]
    simp only [analyzeVideos, hb, List.isEmpty]
    rcases hgc : env.genContent ⟨modelName, [.text promptText, .fileData u "video/*"]⟩ with
      gerr | gok
    · simp [hgc, firstError, collectParts, genReqs_append, genReqs]
    · rcases hx : (extractText gok).result with xerr | xok <;>
        simp [hgc, hx, firstError, collectParts, genReqs_append, genReqs]
  · intro env modelName promptText u bad resp hbad hunsup
    have hb : buildAll (fun i s => createVideoPart env (mkPollCfg env) s i) 0
        [⟨.youtube, u, none⟩, ⟨.url, bad, none⟩] =
        ([.ok (some (.fileData u "video/*")), .ok none], [.fetch bad]) := by
      simp [buildAll, createVideoPart, hbad, hunsup]
    simp only [analyzeVideos, hb, List.isEmpty]
    rcases hgc : env.genContent ⟨modelName, [.text promptText, .fileData u "video/*"]⟩ with
      gerr | gok
    · simp [hgc, firstError, collectParts, genReqs_append, genReqs]
    · rcases hx : (extractText gok).result with xerr | xok <;>
        simp [hgc, hx, firstError, collectParts, genReqs_append, genReqs]
  · intro env modelName promptText good bad m u h hgood hbad hpn hext htmp hnow hstat hup
      hupl hn huri hu
    have c1 := himg env modelName promptText good bad u h hgood hpn hext htmp hnow hstat
      hup hupl hn huri hu
    have c2 : createImagePart env (mkPollCfg env) ⟨.url, bad, none⟩ 1 =
        (.ok none, [.fetch bad]) := by
      simp [createImagePart, hbad]
    have hb : buildAll (fun i s => createImagePart env (mkPollCfg env) s i) 0
        [⟨.url, good, none⟩, ⟨.url, bad, none⟩] =
        ([.ok (some (.fileData u (h.mimeType.getD "image/png"))), .ok none],
          [.fetch good, .statF "/tmp/gemini-upload-abc/image-5",
           .upload "/tmp/gemini-upload-abc/image-5" "image/png", .fetch bad]) := by
      simp [buildAll, c1, c2]
    simp only [analyzeImages, hb, List.isEmpty]
    rcases hgc : env.genContent ⟨modelName,
      [.text promptText, .fileData u (h.mimeType.getD "image/png")]⟩ with gerr | gok
    · simp [hgc, firstError, collectParts, genReqs_append, genReqs]
    · rcases hx : (extractText gok).result with xerr | xok <;>
        simp [hgc, hx, firstError, collectParts, genReqs_append, genReqs]
  · intro env modelName promptText good bad u h resp hgood hbad hmis hpn hext htmp hnow
      hstat hup hupl hn huri hu
    have c1 := himg env modelName promptText good bad u h hgood hpn hext htmp hnow hstat
      hup hupl hn huri hu
    have c2 : createImagePart env (mkPollCfg env) ⟨.url, bad, none⟩ 1 =
        (.ok none, [.fetch bad]) := by
      simp [createImagePart, hbad, hmis]
    have hb : buildAll (fun i s => createImagePart env (mkPollCfg env) s i) 0
        [⟨.url, good, none⟩, ⟨.url, bad, none⟩] =
        ([.ok (some (.fileData u (h.mimeType.getD "image/png"))), .ok none],
          [.fetch good, .statF "/tmp/gemini-upload-abc/image-5",
           .upload "/tmp/gemini-upload-abc/image-5" "image/png", .fetch bad]) := by
      simp [buildAll, c1, c2]
    simp only [analyzeImages, hb, List.isEmpty]
    rcases hgc : env.genContent ⟨modelName,
      [.text promptText, .fileData u (h.mimeType.getD "image/png")]⟩ with gerr | gok
    · simp [hgc, firstError, collectParts, genReqs_append, genReqs]
    · rcases hx : (extractText gok).result with xerr | xok <;>
        simp [hgc, hx, firstError, collectParts, genReqs_append, genReqs]

/-- The environment of the C1 image witness: one fetchable PNG URL,
everything stattable, upload returning a nameless handle with a uri. -/
def imgEnv : Env :=
  { testEnv with
    fetch := fun q => if q = "https://x/img.png" then .ok ⟨some "image/png"⟩ else .error "nf"
    stat := fun _ => .file
    hasUpload := true
    upload := fun _ _ => .ok ⟨none, some "files/u9", some "image/png", none, none⟩ }

/-- C1 witness for the amended claim: the failing URL source is dropped
and exactly one inference request with the surviving parts is issued, for
a YouTube+URL video batch with a failing fetch, a YouTube+URL video batch
served an unsupported type, and a good+bad image URL batch. -/
theorem url_source_failures_skipped_witness :
    genReqs (analyzeVideos testEnv "m"
        [⟨.youtube, "https://youtu.be/q", none⟩, ⟨.url, "https://bad", none⟩] "p").2 =
      [⟨"m", [.text "p", .fileData "https://youtu.be/q" "video/*"]⟩]
    ∧ genReqs (analyzeVideos { testEnv with fetch := fun _ => .ok ⟨some "video/x-matroska"⟩ }
        "m" [⟨.youtube, "https://youtu.be/q", none⟩, ⟨.url, "https://bad.mkv", none⟩] "p").2 =
      [⟨"m", [.text "p", .fileData "https://youtu.be/q" "video/*"]⟩]
    ∧ genReqs (analyzeImages imgEnv "m"
        [⟨.url, "https://x/img.png", none⟩, ⟨.url, "https://x/bad", none⟩] "p").2 =
      [⟨"m", [.text "p", .fileData "files/u9"
        ((some "image/png").getD "image/png")]⟩] :=
  ⟨url_source_failures_skipped_batch_proceeds.1 testEnv "m" "p" "https://youtu.be/q"
      "https://bad" "network down" (by rfl),
   url_source_failures_skipped_batch_proceeds.2.1
      { testEnv with fetch := fun _ => .ok ⟨some "video/x-matroska"⟩ } "m" "p"
      "https://youtu.be/q" "https://bad.mkv" ⟨some "video/x-matroska"⟩ (by rfl) (by rfl),
   url_source_failures_skipped_batch_proceeds.2.2.1 imgEnv "m" "p" "https://x/img.png"
      "https://x/bad" "nf" "files/u9" ⟨none, some "files/u9", some "image/png", none, none⟩
      (by rfl) (by rfl) (fun q => rfl) (fun q => rfl) rfl rfl (fun q => rfl) rfl
      (fun q mt => rfl) rfl rfl (by decide)⟩

lemma posixIsAbsolute_slash_append (s : String) : posixIsAbsolute ("/" ++ s) = true := rfl

lemma posixNormalize_absolute (p : String) (h : posixIsAbsolute p = true) :
    posixIsAbsolute (posixNormalize p) = true := by
  have hp : p ≠ "" := by
    intro he; subst he; simp [posixIsAbsolute] at h
  rw [posixNormalize, if_neg hp]
  simp only [h]
  split
  · rfl
  · exact posixIsAbsolute_slash_append _

lemma resolveCombine_snd_true (cwd : String) (h : posixIsAbsolute cwd = true) :
    ∀ (l : List String) (acc : String), (resolveCombine cwd l acc).2 = true := by
  have hc : cwd ≠ "" := by
    intro he; subst he; simp [posixIsAbsolute] at h
  intro l
  induction l with
  | nil => intro acc; simp [resolveCombine, hc, h]
  | cons a rest ih =>
    intro acc
    simp only [resolveCombine]
    split
    · exact ih _
    · split
      · rfl
      · exact ih _

lemma posixResolveArgs_absolute (cwd : String) (args : List String)
    (h : posixIsAbsolute cwd = true) :
    posixIsAbsolute (posixResolveArgs cwd args) = true := by
  simp only [posixResolveArgs, resolveCombine_snd_true cwd h]
  simp
  exact posixIsAbsolute_slash_append _

/-- C9 (amended, corrected): resolveLocalPath never throws — every input
yields null or the normalized finishing of the preprocessed candidate —
and the returned path is POSIX-absolute except when the candidate was
accepted through the Windows absolute-path rule without being
POSIX-absolute, in which case POSIX normalization is applied to it as-is
and the result can be relative. -/
theorem resolve_local_path_amended (env : CfgEnv) (input : String)
    (hcwd : posixIsAbsolute env.cwd = true) :
    (resolveCandidate env input = none → resolveLocalPath env input = none)
    ∧ (∀ c, resolveCandidate env input = some c →
        resolveLocalPath env input = some (finishPath env c)
        ∧ (win32IsAbsolute c = true ∧ posixIsAbsolute c = false
          ∨ posixIsAbsolute (finishPath env c) = true)) := by
  constructor
  · intro h; simp [resolveLocalPath, h]
  · intro c hc
    refine ⟨by simp [resolveLocalPath, hc], ?_⟩
    by_cases habs : isAbsolutePathTS c = true
    · by_cases hpos : posixIsAbsolute c = true
      · right
        rw [finishPath, if_pos habs]
        exact posixNormalize_absolute c hpos
      · left
        have hw : win32IsAbsolute c = true := by
          rw [isAbsolutePathTS] at habs
          rcases Bool.or_eq_true_iff.mp habs with hx | hx
          · exact absurd hx hpos
          · exact hx
        exact ⟨hw, by simpa using hpos⟩
    · right
      rw [finishPath, if_neg habs]
      exact posixNormalize_absolute _ (posixResolveArgs_absolute env.cwd [c] hcwd)

/-- C9 counterexample: the input backslash-foo/../x is accepted as
Windows-absolute, skips the resolve step, and POSIX normalization turns it
into the relative path x — the function returns a path that is neither
POSIX- nor Windows-absolute, contradicting the claim that every non-null
result is absolute. -/
theorem windows_candidate_relative_counterexample :
    resolveLocalPath cfgTestEnv "\\foo/../x" = some "x"
    ∧ posixIsAbsolute "x" = false ∧ win32IsAbsolute "x" = false :=
  ⟨rfl, rfl, rfl⟩

/-- C9 witness: the relative input x resolves against the working
directory to an absolute normalized path. -/
theorem resolve_local_path_witness :
    resolveLocalPath cfgTestEnv "x" = some (finishPath cfgTestEnv "x")
    ∧ (win32IsAbsolute "x" = true ∧ posixIsAbsolute "x" = false
      ∨ posixIsAbsolute (finishPath cfgTestEnv "x") = true) :=
  (resolve_local_path_amended cfgTestEnv "x" (by rfl)).2 "x" (by rfl)

end GeminiMcp







